import Mathlib

/-
Verification of rest_framework_dyn_serializer.py: a shallow embedding of the
DynSerializerMixin / DynModelSerializer pair, followed by theorems about the
field-selection behaviour.

Modelling notes.
The host framework (DRF) builds the field registry of a serializer lazily, at
the first access of self.fields, from the names returned by get_field_names.
DynModelSerializer overrides get_field_names to return _requested_fields.  In
every code path of this module the first access of self.fields happens inside
exclude_omitted_fields, after _requested_fields has been assigned, so the
registry is modelled as built at that point.  Python set values
(list(set(..)), set intersection) have unspecified iteration order; they are
modelled with dedup / filter, and all theorems are stated at the level of
membership or finite sets.
-/

/-- Embedding of the request object: the HTTP method string and the query
parameter lookup request.query_params.get. -/
structure Request where
  method : String
  query_params : String → Option String

/-- Embedding of a serializer Meta options class.  A none value for an Option
field means the attribute is absent on the class (hasattr is false).
model_fields lists the field names of the bound model, as produced by
Meta.model._meta.get_fields(); has_model records whether Meta.model exists. -/
structure Meta where
  has_model : Bool
  fields_param : Option String
  fields : Option (List String)
  default_fields : Option (List String)
  limit_fields : Option Bool
  exclude : List String
  model_fields : List String

/-- Keyword arguments consumed by DynModelSerializer.__init__ through
kwargs.pop: nested, limit_fields and fields (none when the caller did not
pass the keyword). -/
structure InitKwargs where
  nested : Bool
  limit_fields : Option Bool
  fields : Option (List String)

/-- Python str.split for the one-character separator comma, working over the
character list: splitting the empty string gives the one-element list
containing the empty string, exactly as in Python. -/
def splitCommaAux : List Char → List Char → List String
  | [], acc => [String.mk acc.reverse]
  | c :: rest, acc =>
    if c = ',' then String.mk acc.reverse :: splitCommaAux rest []
    else splitCommaAux rest (c :: acc)

/-- fields_param_value.split(",") from get_requested_field_names. -/
def splitComma (s : String) : List String := splitCommaAux s.data []

/-- The declared field list a DynModelSerializer starts from: Meta.fields when
the attribute is present, otherwise every field name of the bound model
(set_allowed_fields, lines 120 - 125). -/
def declaredFieldNames (meta : Meta) : List String :=
  match meta.fields with
  | some fs => fs
  | none => meta.model_fields

/-- DynModelSerializer.set_allowed_fields (lines 119 - 131).  Python
`not fields` is true both for None and for an empty list, so an empty
explicit list behaves like no explicit list.  list(set(include) - exclude)
is modelled as filter plus dedup. -/
def set_allowed_fields (meta : Meta) (fields : Option (List String)) : List String :=
  let meta_fields := declaredFieldNames meta
  let includeFields :=
    match fields with
    | none => meta_fields
    | some fs =>
      if fs.isEmpty then meta_fields
      else meta_fields.filter (fun f => decide (f ∈ fs))
  (includeFields.filter (fun f => decide (f ∉ meta.exclude))).dedup

/-- The per-instance configuration a DynModelSerializer carries after its
__init__: Meta.fields_param, self._allowed_fields, self.default_fields,
self.limit_fields and self.nested. -/
structure DynCfg where
  fields_param : String
  allowed_fields : List String
  default_fields : List String
  limit_fields : Bool
  nested : Bool
deriving DecidableEq

/-- The assertion failures DynModelSerializer.__init__ can raise. -/
inductive InitError where
  | missingModel
  | missingFieldsParam
  | defaultFieldNotAllowed (field_name : String)
deriving DecidableEq

/-- The checks and attribute computations of DynModelSerializer.__init__
(lines 79 - 93), up to the superclass constructor call: assert Meta.model,
assert Meta.fields_param, read default_fields (falling back to the id list),
resolve limit_fields (kwargs over Meta over False), compute the allowed
fields, and assert every default field is allowed (first offender reported,
in list order, as the assert loop does). -/
def dynModelCheck (meta : Meta) (kwargs : InitKwargs) : Except InitError DynCfg :=
  if meta.has_model = false then .error .missingModel
  else
    match meta.fields_param with
    | none => .error .missingFieldsParam
    | some p =>
      let default_fields := meta.default_fields.getD ["id"]
      let limit_fields := kwargs.limit_fields.getD (meta.limit_fields.getD false)
      let allowed := set_allowed_fields meta kwargs.fields
      match default_fields.find? (fun f => decide (f ∉ allowed)) with
      | some f => .error (.defaultFieldNotAllowed f)
      | none =>
        .ok { fields_param := p, allowed_fields := allowed,
              default_fields := default_fields, limit_fields := limit_fields,
              nested := kwargs.nested }

/-- DynModelSerializer.get_requested_field_names (lines 133 - 139): read the
configured query parameter; when present, split on comma and, when the split
list is non-empty (it always is), return the intersection of the allowed
fields with the split names; otherwise return the default fields. -/
def get_requested_field_names (cfg : DynCfg) (r : Request) : List String :=
  match r.query_params cfg.fields_param with
  | some v =>
    let requested_fields := splitComma v
    if requested_fields.isEmpty then cfg.default_fields
    else (cfg.allowed_fields.filter (fun f => decide (f ∈ requested_fields))).dedup
  | none => cfg.default_fields

/-- DynModelSerializer.is_field_requested (lines 141 - 152).  The result none
models the assert failing when the request is None in limit_fields mode. -/
def is_field_requested (cfg : DynCfg) (ctx : Option Request) (field_name : String) :
    Option Bool :=
  if cfg.limit_fields then
    match ctx with
    | some r => some (decide (field_name ∈ get_requested_field_names cfg r))
    | none => none
  else some true

/-- Outcome of the ORM lookup Meta.model.objects.get(pk=data): a record, an
ObjectDoesNotExist exception, or a TypeError / ValueError raised by the
lookup on an incompatible value. -/
inductive GetResult (β : Type) where
  | found (record : β)
  | doesNotExist
  | typeError
deriving DecidableEq

/-- A validation failure raised through self.fail: the error code together
with its format argument (does_not_exist carries pk_value, incorrect_type
carries type(data).__name__). -/
inductive ValFail (α : Type) where
  | does_not_exist (pk_value : α)
  | incorrect_type (data_type : String)
deriving DecidableEq

/-- DynModelSerializer.to_internal_value (lines 102 - 113).  superTIV is the
inherited ModelSerializer.to_internal_value, objectsGet the ORM primary key
lookup, typeName the Python type(data).__name__. -/
def to_internal_value {α β : Type} (nested : Bool)
    (superTIV : α → Except (ValFail α) β)
    (objectsGet : α → GetResult β)
    (typeName : α → String) (data : α) : Except (ValFail α) β :=
  if nested = false then superTIV data
  else
    match objectsGet data with
    | .found record => .ok record
    | .doesNotExist => .error (.does_not_exist data)
    | .typeError => .error (.incorrect_type (typeName data))

/-- The kind of a serializer instance: a serializer that only mixes in
DynSerializerMixin, or a full DynModelSerializer with its configuration. -/
inductive SKind where
  | mixinOnly
  | dynModel (cfg : DynCfg)

mutual
/-- A serializer instance: its kind, its limit_fields attribute (none when
the attribute was never assigned, matching getattr with a default), its
_requested_fields list, and its field mapping.  At declaration time the
field mapping holds the declared fields; after initialization it is the
built registry. -/
inductive Ser where
  | mk (kind : SKind) (limit_fields : Option Bool) (requested : List String)
      (fields : Flds)

/-- An ordered field mapping, as the serializer field dictionary. -/
inductive Flds where
  | nil
  | cons (name : String) (field : Fld) (rest : Flds)

/-- A single entry of the field mapping: a plain field, a ListSerializer
whose child is not a mixin, a ListSerializer whose child supports the mixin,
or a directly nested mixin-supporting serializer. -/
inductive Fld where
  | plain
  | listPlain
  | listMixin (child : Ser)
  | nested (child : Ser)
end

def Ser.kind : Ser → SKind
  | .mk k _ _ _ => k

def Ser.limit_fields : Ser → Option Bool
  | .mk _ lf _ _ => lf

def Ser.requested : Ser → List String
  | .mk _ _ req _ => req

def Ser.fields : Ser → Flds
  | .mk _ _ _ fl => fl

/-- The key list of a field mapping. -/
def Flds.names : Flds → List String
  | .nil => []
  | .cons n _ rest => n :: rest.names

/-- Dictionary lookup in a field mapping. -/
def Flds.lookup : Flds → String → Option Fld
  | .nil, _ => none
  | .cons n f rest, m => if n = m then some f else rest.lookup m

/-- The pop loop of exclude_omitted_fields (lines 46 - 49): drop every entry
whose name is not in the permitted name list. -/
def Flds.keepOnly : Flds → List String → Flds
  | .nil, _ => .nil
  | .cons n f rest, names =>
    if decide (n ∈ names) then .cons n f (rest.keepOnly names)
    else rest.keepOnly names

/-- The lazy registry build the framework performs for a ModelSerializer: one
entry per name returned by get_field_names, taking the declared field for a
declared name and building a plain model field otherwise. -/
def buildRegistry (decl : Flds) : List String → Flds
  | [] => .nil
  | n :: rest => .cons n ((decl.lookup n).getD .plain) (buildRegistry decl rest)

/-- DynModelSerializer.get_field_names (lines 154 - 158): the names the
framework builds the registry from are exactly _requested_fields. -/
def get_field_names (s : Ser) : List String := s.requested

/-- DynSerializerMixin.get_requested_field_names (lines 63 - 64): the set of
names of the current field registry. -/
def mixinRequestedFieldNames (s : Ser) : List String := s.fields.names

mutual
/-- DynSerializerMixin.exclude_omitted_fields (lines 34 - 58).  The limit
flag is getattr(self, limit_fields attribute, parent flag).  field_names is
the dispatched get_requested_field_names: the query resolution for a
DynModelSerializer, the current registry names for a mixin-only serializer;
it becomes the new _requested_fields.  The registry is built at this point
(see the module comment): for a DynModelSerializer its keys are
get_field_names = _requested_fields with dictionary-unique keys, for a
mixin-only serializer it is the declared mapping.  When the resolved flag is
true the pop loop keeps only names in field_names.  The loop over the
remaining fields recurses into ListSerializer children whose child is a
mixin and into directly nested mixin children, passing the resolved flag as
the new parent flag; the recursion is applied on the declared mapping before
the registry filter, which yields the same tree because dropped entries are
discarded either way and the recursion has no other effect. -/
def exclude_omitted_fields (r : Request) (parent_limit_fields : Bool) : Ser → Ser
  | .mk kind lf _ decl =>
    let limit_fields := lf.getD parent_limit_fields
    let field_names :=
      match kind with
      | .dynModel cfg => get_requested_field_names cfg r
      | .mixinOnly => decl.names
    let declTrans := excludeFlds r limit_fields decl
    let registry :=
      match kind with
      | .dynModel _ => buildRegistry declTrans field_names.dedup
      | .mixinOnly => declTrans
    let registry2 := if limit_fields then registry.keepOnly field_names else registry
    .mk kind lf field_names registry2

/-- The recursion of exclude_omitted_fields over a field mapping. -/
def excludeFlds (r : Request) (limit : Bool) : Flds → Flds
  | .nil => .nil
  | .cons n f rest => .cons n (excludeFld r limit f) (excludeFlds r limit rest)

/-- The recursion of exclude_omitted_fields on one field entry (lines
51 - 58): recurse into mixin children with the resolved flag, leave other
fields unchanged. -/
def excludeFld (r : Request) (limit : Bool) : Fld → Fld
  | .plain => .plain
  | .listPlain => .listPlain
  | .listMixin child => .listMixin (exclude_omitted_fields r limit child)
  | .nested child => .nested (exclude_omitted_fields r limit child)
end

/-- request_all_allowed_fields: the DynModelSerializer version (lines
115 - 117) appends every allowed field to _requested_fields; the mixin
version (lines 60 - 61) is a no-op. -/
def request_all_allowed_fields : Ser → Ser
  | .mk kind lf req fl =>
    match kind with
    | .dynModel cfg => .mk kind lf (req ++ cfg.allowed_fields) fl
    | .mixinOnly => .mk kind lf req fl

/-- DynSerializerMixin.__init__ after the superclass constructor (lines
11 - 29): with a GET request run exclude_omitted_fields (the parent flag
defaults to False); with a non-GET request assign limit_fields = False and
request all allowed fields; with no request in the context request all
allowed fields. -/
def mixinInit (ctx : Option Request) : Ser → Ser
  | .mk kind lf req fl =>
    match ctx with
    | some r =>
      if r.method = "GET" then exclude_omitted_fields r false (.mk kind lf req fl)
      else request_all_allowed_fields (.mk kind (some false) req fl)
    | none => request_all_allowed_fields (.mk kind lf req fl)

/-- DynModelSerializer.__init__ (lines 76 - 95): _requested_fields starts
empty, the Meta checks and attribute computations run, then the mixin
initializer finishes the construction.  decl is the declared field
mapping. -/
def dynModelInit (meta : Meta) (kwargs : InitKwargs) (ctx : Option Request)
    (decl : Flds) : Except InitError Ser :=
  match dynModelCheck meta kwargs with
  | .error e => .error e
  | .ok cfg => .ok (mixinInit ctx (.mk (.dynModel cfg) (some cfg.limit_fields) [] decl))

/-
Concrete instances used by witnesses and counterexamples.  The schema mirrors
the article serializer of the sample application: declared fields id, title,
content with defaults id, title and query parameter article_fields.
-/

/-- A GET request carrying no query parameters. -/
def reqGetNone : Request := { method := "GET", query_params := fun _ => none }

/-- A POST request carrying a field selection parameter. -/
def reqPost : Request :=
  { method := "POST",
    query_params := fun k => if k = "article_fields" then some "title,bogus" else none }

/-- A GET request selecting title plus a name that is not allowed. -/
def reqGetParam : Request :=
  { method := "GET",
    query_params := fun k => if k = "article_fields" then some "title,bogus" else none }

/-- A GET request whose selection parameter is present but empty. -/
def reqGetEmpty : Request :=
  { method := "GET",
    query_params := fun k => if k = "article_fields" then some "" else none }

/-- The article schema Meta with limiting enabled. -/
def metaArticle : Meta :=
  { has_model := true, fields_param := some "article_fields",
    fields := some ["id", "title", "content"],
    default_fields := some ["id", "title"],
    limit_fields := some true, exclude := [], model_fields := [] }

/-- The article schema Meta with limiting disabled. -/
def metaArticleNoLimit : Meta := { metaArticle with limit_fields := some false }

/-- Construction keyword arguments with nothing passed. -/
def kwNone : InitKwargs := { nested := false, limit_fields := none, fields := none }

/-- The configuration metaArticle produces. -/
def cfgArticle : DynCfg :=
  { fields_param := "article_fields",
    allowed_fields := ["id", "title", "content"],
    default_fields := ["id", "title"], limit_fields := true, nested := false }

/-- The configuration metaArticleNoLimit produces. -/
def cfgArticleNoLimit : DynCfg := { cfgArticle with limit_fields := false }

/-- The declared field mapping of the article schema. -/
def declArticle : Flds :=
  .cons "id" .plain (.cons "title" .plain (.cons "content" .plain .nil))

/-- A nested review serializer configuration with limiting explicitly
disabled. -/
def cfgReview : DynCfg :=
  { fields_param := "review_fields", allowed_fields := ["id", "stars"],
    default_fields := ["id"], limit_fields := false, nested := false }

/-- The review serializer instance as it stands after its declaration-time
construction with no request in context. -/
def serReview : Ser :=
  .mk (.dynModel cfgReview) (some false) ["id", "stars"]
    (.cons "id" .plain (.cons "stars" .plain .nil))

/-- The article serializer after construction on a POST request. -/
def serArticlePost : Ser :=
  .mk (.dynModel cfgArticle) (some false) ["id", "title", "content"] declArticle

/-- The article serializer (limiting disabled) after construction on a GET
request with no query parameter. -/
def serArticleNoLimitGet : Ser :=
  .mk (.dynModel cfgArticleNoLimit) (some false) ["id", "title"]
    (.cons "id" .plain (.cons "title" .plain .nil))

/-- The article serializer after construction on a GET request selecting
title plus an unknown name. -/
def serArticleParamGet : Ser :=
  .mk (.dynModel cfgArticle) (some true) ["title"] (.cons "title" .plain .nil)

/-- The article serializer after construction on a GET request with an empty
selection parameter. -/
def serArticleEmptyGet : Ser := .mk (.dynModel cfgArticle) (some true) [] .nil

/-
Supporting lemmas.
-/

/-- Characterization of a successful construction check: what the resulting
configuration holds and that every default field is allowed. -/
theorem dynModelCheck_ok_spec (meta : Meta) (kwargs : InitKwargs) (cfg : DynCfg)
    (hok : dynModelCheck meta kwargs = .ok cfg) :
    meta.has_model = true ∧
    meta.fields_param = some cfg.fields_param ∧
    cfg.allowed_fields = set_allowed_fields meta kwargs.fields ∧
    cfg.default_fields = meta.default_fields.getD ["id"] ∧
    cfg.limit_fields = kwargs.limit_fields.getD (meta.limit_fields.getD false) ∧
    ∀ f ∈ cfg.default_fields, f ∈ cfg.allowed_fields := by
  unfold dynModelCheck at hok
  split at hok
  · simp at hok
  next hm =>
    split at hok
    next => simp at hok
    next p hp =>
      simp only at hok
      split at hok
      next => simp at hok
      next hfind =>
        simp only [Except.ok.injEq] at hok
        subst hok
        refine ⟨by simpa using hm, by rw [hp], rfl, rfl, rfl, ?_⟩
        intro f hf
        have h2 := List.find?_eq_none.mp hfind f hf
        simpa using h2

/-- Splitting any string on comma yields at least one piece, as in Python. -/
theorem splitCommaAux_ne_nil (l : List Char) (acc : List Char) :
    splitCommaAux l acc ≠ [] := by
  induction l generalizing acc with
  | nil => simp [splitCommaAux]
  | cons c rest ih =>
    simp only [splitCommaAux]
    split
    · simp
    · exact ih _

theorem splitComma_isEmpty_false (s : String) : (splitComma s).isEmpty = false := by
  cases hc : splitComma s with
  | nil => exact absurd hc (splitCommaAux_ne_nil _ _)
  | cons a l => rfl

/-- The allowed field set only narrows the declared field set. -/
theorem set_allowed_fields_subset_declared (meta : Meta) (fields : Option (List String)) :
    ∀ f ∈ set_allowed_fields meta fields, f ∈ declaredFieldNames meta := by
  intro f hf
  simp only [set_allowed_fields, List.mem_dedup, List.mem_filter] at hf
  rcases hf with ⟨hf1, _⟩
  cases fields with
  | none => exact hf1
  | some fs =>
    simp only at hf1
    by_cases h : fs.isEmpty = true
    · rw [if_pos h] at hf1; exact hf1
    · rw [if_neg h] at hf1
      exact (List.mem_filter.mp hf1).1

/-- The requested field resolution only narrows the allowed field set, given
that every default field is allowed. -/
theorem get_requested_subset_allowed (cfg : DynCfg) (r : Request)
    (hdef : ∀ f ∈ cfg.default_fields, f ∈ cfg.allowed_fields) :
    ∀ f ∈ get_requested_field_names cfg r, f ∈ cfg.allowed_fields := by
  intro f hf
  unfold get_requested_field_names at hf
  cases hq : r.query_params cfg.fields_param with
  | none => rw [hq] at hf; exact hdef f hf
  | some v =>
    rw [hq] at hf
    simp only at hf
    by_cases he : (splitComma v).isEmpty = true
    · rw [if_pos he] at hf; exact hdef f hf
    · rw [if_neg he] at hf
      simp only [List.mem_dedup, List.mem_filter] at hf
      exact hf.1

/-- The mixin initializer on a GET request runs exclude_omitted_fields with
the parent flag defaulted to False. -/
theorem mixinInit_get (r : Request) (h : r.method = "GET") (s : Ser) :
    mixinInit (some r) s = exclude_omitted_fields r false s := by
  cases s with
  | mk k lf req fl => simp [mixinInit, h]

/-- The mixin initializer on a non-GET request disables limiting and requests
all allowed fields. -/
theorem mixinInit_non_get (r : Request) (h : ¬ r.method = "GET")
    (k : SKind) (lf : Option Bool) (req : List String) (fl : Flds) :
    mixinInit (some r) (.mk k lf req fl)
      = request_all_allowed_fields (.mk k (some false) req fl) := by
  simp [mixinInit, h]

/-- A successful construction is the mixin initializer applied to the fresh
instance. -/
theorem dynModelInit_ok (meta : Meta) (kwargs : InitKwargs) (cfg : DynCfg)
    (ctx : Option Request) (decl : Flds)
    (hok : dynModelCheck meta kwargs = .ok cfg) :
    dynModelInit meta kwargs ctx decl
      = .ok (mixinInit ctx (.mk (.dynModel cfg) (some cfg.limit_fields) [] decl)) := by
  simp [dynModelInit, hok]

/-- After exclude_omitted_fields, a DynModelSerializer instance holds the
request resolution as its _requested_fields, whatever the flags. -/
theorem exclude_dyn_requested (r : Request) (p : Bool) (cfg : DynCfg)
    (lf : Option Bool) (req : List String) (fl : Flds) :
    (exclude_omitted_fields r p (.mk (.dynModel cfg) lf req fl)).requested
      = get_requested_field_names cfg r := rfl

/-
Claim theorems.
-/

/-- C1: for every constructed DynModelSerializer handling a GET request, when
the configured query parameter is absent get_requested_field_names returns
exactly the default field set, and when it is present with a comma-separated
value the result is exactly the intersection of the split names with the
allowed field set; every returned name is allowed, and names outside the
allowed set are dropped without any error (the function is total). -/
theorem c1_requested_resolution (meta : Meta) (kwargs : InitKwargs) (cfg : DynCfg)
    (r : Request) (hok : dynModelCheck meta kwargs = .ok cfg) :
    (r.query_params cfg.fields_param = none →
      get_requested_field_names cfg r = cfg.default_fields) ∧
    ∀ v, r.query_params cfg.fields_param = some v →
      ((get_requested_field_names cfg r).toFinset
          = cfg.allowed_fields.toFinset ∩ (splitComma v).toFinset ∧
        ∀ f ∈ get_requested_field_names cfg r, f ∈ cfg.allowed_fields) := by
  constructor
  · intro h
    simp [get_requested_field_names, h]
  · intro v hv
    have hne := splitComma_isEmpty_false v
    constructor
    · ext f
      simp [get_requested_field_names, hv, hne, List.mem_toFinset, List.mem_dedup,
            List.mem_filter, Finset.mem_inter]
    · intro f hf
      simp only [get_requested_field_names, hv, hne, Bool.false_eq_true, if_false,
        List.mem_dedup, List.mem_filter, decide_eq_true_eq] at hf
      exact hf.1

theorem c1_witness :
    get_requested_field_names cfgArticle reqGetNone = cfgArticle.default_fields ∧
    (get_requested_field_names cfgArticle reqGetParam).toFinset
      = cfgArticle.allowed_fields.toFinset ∩ (splitComma "title,bogus").toFinset :=
  ⟨(c1_requested_resolution metaArticle kwNone cfgArticle reqGetNone rfl).1 rfl,
   ((c1_requested_resolution metaArticle kwNone cfgArticle reqGetParam rfl).2
      "title,bogus" rfl).1⟩

/-- C2: a DynModelSerializer constructed with a non-GET request applies no
field filtering: its field registry is the untouched declared mapping, its
limit flag is set to False, and the exposed field list (get_field_names, the
final _requested_fields) is exactly the full allowed field list, regardless
of any query parameter on the request. -/
theorem c2_non_get_all_allowed (meta : Meta) (kwargs : InitKwargs) (cfg : DynCfg)
    (r : Request) (decl : Flds) (s : Ser)
    (hok : dynModelCheck meta kwargs = .ok cfg)
    (hm : r.method ≠ "GET")
    (hinit : dynModelInit meta kwargs (some r) decl = .ok s) :
    get_field_names s = cfg.allowed_fields ∧ s.requested = cfg.allowed_fields ∧
    s.limit_fields = some false ∧ s.fields = decl := by
  rw [dynModelInit_ok meta kwargs cfg (some r) decl hok] at hinit
  injection hinit with h
  subst h
  rw [mixinInit_non_get r hm]
  exact ⟨rfl, rfl, rfl, rfl⟩

theorem c2_witness :
    get_field_names serArticlePost = cfgArticle.allowed_fields ∧
    serArticlePost.requested = cfgArticle.allowed_fields ∧
    serArticlePost.limit_fields = some false ∧ serArticlePost.fields = declArticle :=
  c2_non_get_all_allowed metaArticle kwNone cfgArticle reqPost declArticle
    serArticlePost rfl (by decide) rfl

/-- C5: for every constructed DynModelSerializer, on any request context the
exposed field list is a subset of the allowed field set, which is itself a
subset of the declared field set: the filtering steps only ever remove
names. -/
theorem c5_exposed_subset_invariant (meta : Meta) (kwargs : InitKwargs) (cfg : DynCfg)
    (ctx : Option Request) (decl : Flds) (s : Ser)
    (hok : dynModelCheck meta kwargs = .ok cfg)
    (hinit : dynModelInit meta kwargs ctx decl = .ok s) :
    (∀ f ∈ get_field_names s, f ∈ cfg.allowed_fields) ∧
    (∀ f ∈ cfg.allowed_fields, f ∈ declaredFieldNames meta) := by
  obtain ⟨_, _, h3, _, _, h6⟩ := dynModelCheck_ok_spec meta kwargs cfg hok
  rw [dynModelInit_ok meta kwargs cfg ctx decl hok] at hinit
  injection hinit with h
  subst h
  constructor
  · cases ctx with
    | none =>
      intro f hf
      simp only [get_field_names, mixinInit, request_all_allowed_fields,
        Ser.requested, List.nil_append] at hf
      exact hf
    | some r =>
      by_cases hg : r.method = "GET"
      · rw [mixinInit_get r hg]
        intro f hf
        rw [get_field_names, exclude_dyn_requested] at hf
        exact get_requested_subset_allowed cfg r h6 f hf
      · rw [mixinInit_non_get r hg]
        intro f hf
        simp only [get_field_names, request_all_allowed_fields, Ser.requested,
          List.nil_append] at hf
        exact hf
  · intro f hf
    rw [h3] at hf
    exact set_allowed_fields_subset_declared meta kwargs.fields f hf

theorem c5_witness :
    (∀ f ∈ get_field_names serArticleParamGet, f ∈ cfgArticle.allowed_fields) ∧
    (∀ f ∈ cfgArticle.allowed_fields, f ∈ declaredFieldNames metaArticle) :=
  c5_exposed_subset_invariant metaArticle kwNone cfgArticle (some reqGetParam)
    declArticle serArticleParamGet rfl rfl

/-- C6: constructing a DynModelSerializer passes its assertion checks exactly
when Meta.model is present, Meta.fields_param is present, and every name in
the computed default field list belongs to the computed allowed field set;
if any of the three fails the construction raises an assertion error. -/
theorem c6_construction_checks (meta : Meta) (kwargs : InitKwargs) :
    (∃ cfg, dynModelCheck meta kwargs = .ok cfg) ↔
      (meta.has_model = true ∧ meta.fields_param ≠ none ∧
        ∀ f ∈ meta.default_fields.getD ["id"],
          f ∈ set_allowed_fields meta kwargs.fields) := by
  constructor
  · rintro ⟨cfg, hok⟩
    obtain ⟨h1, h2, h3, h4, _, h6⟩ := dynModelCheck_ok_spec meta kwargs cfg hok
    refine ⟨h1, by simp [h2], ?_⟩
    intro f hf
    rw [← h4] at hf
    have h7 := h6 f hf
    rwa [h3] at h7
  · rintro ⟨h1, h2, h3⟩
    cases hp : meta.fields_param with
    | none => exact absurd hp h2
    | some p =>
      refine ⟨{ fields_param := p,
                allowed_fields := set_allowed_fields meta kwargs.fields,
                default_fields := meta.default_fields.getD ["id"],
                limit_fields := kwargs.limit_fields.getD (meta.limit_fields.getD false),
                nested := kwargs.nested }, ?_⟩
      unfold dynModelCheck
      rw [h1, hp]
      have hfind : (meta.default_fields.getD ["id"]).find?
          (fun f => !decide (f ∈ set_allowed_fields meta kwargs.fields)) = none := by
        rw [List.find?_eq_none]
        intro f hf
        simpa using h3 f hf
      simp [hfind]

theorem c6_witness : ∃ cfg, dynModelCheck metaArticle kwNone = .ok cfg :=
  (c6_construction_checks metaArticle kwNone).mpr (by decide)

/-- C7: is_field_requested returns true unconditionally when the limit flag
is false; with the flag true and a request available it returns true exactly
when the name is in the resolved requested field set; with the flag true and
no request available it fails the assertion (modelled as none). -/
theorem c7_is_field_requested_spec (cfg : DynCfg) (ctx : Option Request) (r : Request)
    (f : String) :
    is_field_requested { cfg with limit_fields := false } ctx f = some true ∧
    is_field_requested { cfg with limit_fields := true } (some r) f
      = some (decide (f ∈ get_requested_field_names { cfg with limit_fields := true } r)) ∧
    (is_field_requested { cfg with limit_fields := true } (some r) f = some true ↔
      f ∈ get_requested_field_names { cfg with limit_fields := true } r) ∧
    is_field_requested { cfg with limit_fields := true } none f = none := by
  refine ⟨?_, rfl, ?_, rfl⟩
  · simp [is_field_requested]
  · simp [is_field_requested]

/-- C8: to_internal_value with nested true treats the incoming value as a
primary key: a successful lookup returns the referenced record, a missing
record raises the does_not_exist validation failure, and a TypeError or
ValueError from the lookup raises the incorrect_type validation failure
naming the value type; with nested false it delegates to the superclass. -/
theorem c8_to_internal_value_spec {α β : Type} (superTIV : α → Except (ValFail α) β)
    (objectsGet : α → GetResult β) (typeName : α → String) (data : α) (record : β) :
    (to_internal_value false superTIV objectsGet typeName data = superTIV data) ∧
    (objectsGet data = .found record →
      to_internal_value true superTIV objectsGet typeName data = .ok record) ∧
    (objectsGet data = .doesNotExist →
      to_internal_value true superTIV objectsGet typeName data
        = .error (.does_not_exist data)) ∧
    (objectsGet data = .typeError →
      to_internal_value true superTIV objectsGet typeName data
        = .error (.incorrect_type (typeName data))) := by
  refine ⟨rfl, ?_, ?_, ?_⟩ <;>
    · intro h
      simp [to_internal_value, h]

/-- The embedded model lookup used by the C8 witness: pk 1 resolves, pk 2 is
missing, anything else raises a type error. -/
def c8ObjectsGet : Nat → GetResult Nat := fun n =>
  if n = 1 then .found 10 else if n = 2 then .doesNotExist else .typeError

/-- The embedded superclass to_internal_value used by the C8 witness. -/
def c8SuperTIV : Nat → Except (ValFail Nat) Nat := fun n => .ok (n + 100)

theorem c8_witness :
    to_internal_value true c8SuperTIV c8ObjectsGet (fun _ => "int") 1 = .ok 10 ∧
    to_internal_value true c8SuperTIV c8ObjectsGet (fun _ => "int") 2
      = .error (.does_not_exist 2) ∧
    to_internal_value true c8SuperTIV c8ObjectsGet (fun _ => "int") 3
      = .error (.incorrect_type "int") ∧
    to_internal_value false c8SuperTIV c8ObjectsGet (fun _ => "int") 5 = c8SuperTIV 5 :=
  ⟨(c8_to_internal_value_spec c8SuperTIV c8ObjectsGet (fun _ => "int") 1 10).2.1 rfl,
   (c8_to_internal_value_spec c8SuperTIV c8ObjectsGet (fun _ => "int") 2 0).2.2.1 rfl,
   (c8_to_internal_value_spec c8SuperTIV c8ObjectsGet (fun _ => "int") 3 0).2.2.2 rfl,
   (c8_to_internal_value_spec c8SuperTIV c8ObjectsGet (fun _ => "int") 5 0).1⟩

/-- The recursion step of exclude_omitted_fields preserves the key list of a
field mapping: only children are transformed. -/
theorem excludeFlds_names (r : Request) (b : Bool) :
    ∀ fl : Flds, (excludeFlds r b fl).names = fl.names
  | .nil => rfl
  | .cons n f rest => by
    simp [excludeFlds, Flds.names, excludeFlds_names r b rest]

/-- The pop loop removes nothing when every key is permitted. -/
theorem keepOnly_of_all_mem :
    ∀ (fl : Flds) (names : List String),
      (∀ n ∈ fl.names, n ∈ names) → fl.keepOnly names = fl
  | .nil, _, _ => rfl
  | .cons n f rest, names, h => by
    have hn : decide (n ∈ names) = true := by
      simp only [decide_eq_true_eq]
      exact h n (by simp [Flds.names])
    show (if decide (n ∈ names) = true then Flds.cons n f (rest.keepOnly names)
          else rest.keepOnly names) = Flds.cons n f rest
    rw [if_pos hn,
      keepOnly_of_all_mem rest names (fun m hm => h m (by simp [Flds.names, hm]))]

/-- The registry the framework builds has exactly the requested names as
keys. -/
theorem buildRegistry_names (decl : Flds) (names : List String) :
    (buildRegistry decl names).names = names := by
  induction names with
  | nil => rfl
  | cons n rest ih => simp [buildRegistry, Flds.names, ih]

/-- C3 amended: when exclude_omitted_fields runs on a nested serializer, an
instance that declares its own limit_fields preference resolves its limiting
flag from that declaration alone (the parent flag is ignored), and an
instance with no declaration behaves exactly as one that declared the
parent flag (it inherits it); however, a nested DynModelSerializer with
limit_fields false under a limiting parent does not keep its full allowed
set: its _requested_fields become its own request resolution (its default
fields when its query parameter is absent). -/
theorem c3_limit_flag_resolution (r : Request) (p1 p2 : Bool) (b : Bool) (k : SKind)
    (req : List String) (fl : Flds) (cfg : DynCfg) :
    (exclude_omitted_fields r p1 (.mk k (some b) req fl)
      = exclude_omitted_fields r p2 (.mk k (some b) req fl)) ∧
    ((exclude_omitted_fields r p1 (.mk k none req fl)).requested
        = (exclude_omitted_fields r p1 (.mk k (some p1) req fl)).requested ∧
      (exclude_omitted_fields r p1 (.mk k none req fl)).fields
        = (exclude_omitted_fields r p1 (.mk k (some p1) req fl)).fields) ∧
    ((exclude_omitted_fields r true (.mk (.dynModel cfg) (some false) req fl)).requested
      = get_requested_field_names cfg r) := ⟨rfl, ⟨rfl, rfl⟩, rfl⟩

/-- C3 counterexample: the review serializer declares limit_fields false and
runs under a limiting parent on a GET request with no review parameter; it
exposes only its default field id, not its full allowed set id, stars. -/
theorem c3_counterexample :
    (exclude_omitted_fields reqGetNone true serReview).requested = ["id"] ∧
    (exclude_omitted_fields reqGetNone true serReview).fields.names = ["id"] ∧
    serReview.limit_fields = some false ∧
    cfgReview.allowed_fields = ["id", "stars"] ∧
    (exclude_omitted_fields reqGetNone true serReview).fields.names.toFinset
      ≠ cfgReview.allowed_fields.toFinset := by
  refine ⟨rfl, rfl, rfl, rfl, by decide⟩

/-- C4 amended: an instance whose limit flag is false exposes the full
allowed field set on non-GET requests and when no request is attached, but
on a GET request its exposed field list equals the request resolution
(default fields when the parameter is absent, the intersection when
present), which in general differs from the allowed set. -/
theorem c4_limit_false_exposure (meta : Meta) (kwargs : InitKwargs) (cfg : DynCfg)
    (decl : Flds)
    (hok : dynModelCheck meta kwargs = .ok cfg)
    (hfalse : cfg.limit_fields = false) :
    (∀ r s, r.method ≠ "GET" → dynModelInit meta kwargs (some r) decl = .ok s →
      get_field_names s = cfg.allowed_fields) ∧
    (∀ s, dynModelInit meta kwargs none decl = .ok s →
      get_field_names s = cfg.allowed_fields) ∧
    (∀ r s, r.method = "GET" → dynModelInit meta kwargs (some r) decl = .ok s →
      get_field_names s = get_requested_field_names cfg r) := by
  refine ⟨?_, ?_, ?_⟩
  · intro r s hm hinit
    rw [dynModelInit_ok meta kwargs cfg (some r) decl hok] at hinit
    injection hinit with h
    subst h
    rw [mixinInit_non_get r hm]
    rfl
  · intro s hinit
    rw [dynModelInit_ok meta kwargs cfg none decl hok] at hinit
    injection hinit with h
    subst h
    rfl
  · intro r s hg hinit
    rw [dynModelInit_ok meta kwargs cfg (some r) decl hok] at hinit
    injection hinit with h
    subst h
    rw [mixinInit_get r hg]
    rfl

/-- C4 counterexample: the article serializer with limiting disabled, on a
GET request with no query parameter, exposes only the default fields id and
title, not the full allowed set id, title, content. -/
theorem c4_counterexample :
    dynModelCheck metaArticleNoLimit kwNone = .ok cfgArticleNoLimit ∧
    cfgArticleNoLimit.limit_fields = false ∧
    (dynModelInit metaArticleNoLimit kwNone (some reqGetNone) declArticle).map
      get_field_names = .ok ["id", "title"] ∧
    cfgArticleNoLimit.allowed_fields = ["id", "title", "content"] ∧
    (["id", "title"] : List String).toFinset
      ≠ cfgArticleNoLimit.allowed_fields.toFinset := by
  refine ⟨rfl, rfl, rfl, rfl, by decide⟩

theorem c4_witness :
    get_field_names serArticleNoLimitGet
      = get_requested_field_names cfgArticleNoLimit reqGetNone :=
  (c4_limit_false_exposure metaArticleNoLimit kwNone cfgArticleNoLimit declArticle rfl
      rfl).2.2 reqGetNone serArticleNoLimitGet rfl rfl

/-- C9: when the configured query parameter is present with an empty value on
a GET request, the split yields the single empty name, so (the empty string
not being an allowed field name) get_requested_field_names returns the empty
list rather than the default fields, and the constructed serializer exposes
no fields at all. -/
theorem c9_empty_param (meta : Meta) (kwargs : InitKwargs) (cfg : DynCfg)
    (decl : Flds) (r : Request)
    (hok : dynModelCheck meta kwargs = .ok cfg)
    (hget : r.method = "GET")
    (hparam : r.query_params cfg.fields_param = some "")
    (hnot : "" ∉ cfg.allowed_fields) :
    get_requested_field_names cfg r = [] ∧
    (cfg.default_fields ≠ [] → get_requested_field_names cfg r ≠ cfg.default_fields) ∧
    ∀ s, dynModelInit meta kwargs (some r) decl = .ok s →
      (get_field_names s = [] ∧ s.fields.names = []) := by
  have hempty : get_requested_field_names cfg r = [] := by
    unfold get_requested_field_names
    rw [hparam]
    simp only [splitComma_isEmpty_false, Bool.false_eq_true, if_false]
    have hsplit : splitComma "" = [""] := rfl
    rw [hsplit, List.dedup_eq_nil, List.filter_eq_nil_iff]
    intro a ha
    simp only [List.mem_singleton, decide_eq_true_eq]
    intro h
    subst h
    exact hnot ha
  refine ⟨hempty, ?_, ?_⟩
  · intro hdne hcontra
    exact hdne (hcontra.symm.trans hempty)
  · intro s hinit
    rw [dynModelInit_ok meta kwargs cfg (some r) decl hok] at hinit
    injection hinit with h
    subst h
    rw [mixinInit_get r hget]
    constructor
    · rw [get_field_names, exclude_dyn_requested, hempty]
    · show (if (some cfg.limit_fields).getD false
          then (buildRegistry (excludeFlds r cfg.limit_fields decl)
                  (get_requested_field_names cfg r).dedup).keepOnly
                 (get_requested_field_names cfg r)
          else buildRegistry (excludeFlds r cfg.limit_fields decl)
                 (get_requested_field_names cfg r).dedup).names = []
      rw [hempty]
      cases cfg.limit_fields <;> rfl

theorem c9_witness :
    get_requested_field_names cfgArticle reqGetEmpty = [] ∧
    get_field_names serArticleEmptyGet = [] ∧ serArticleEmptyGet.fields.names = [] := by
  obtain ⟨h1, h2, h3⟩ := c9_empty_param metaArticle kwNone cfgArticle declArticle
    reqGetEmpty rfl rfl rfl (by decide)
  exact ⟨h1, (h3 serArticleEmptyGet rfl).1, (h3 serArticleEmptyGet rfl).2⟩

/-- C10: for a serializer using only DynSerializerMixin, the mixin
get_requested_field_names returns the names of its current field registry,
request_all_allowed_fields is a no-op, and exclude_omitted_fields never
removes any of the instance's own fields whatever the flags or query string:
its field mapping keeps exactly its keys, with filtering applied only inside
the nested mixin children it recurses into, which receive the resolved
limiting flag. -/
theorem c10_mixin_only_neutral (r : Request) (p : Bool) (lf : Option Bool)
    (req : List String) (fl : Flds) (s : Ser) :
    mixinRequestedFieldNames s = s.fields.names ∧
    request_all_allowed_fields (.mk .mixinOnly lf req fl) = .mk .mixinOnly lf req fl ∧
    (exclude_omitted_fields r p (.mk .mixinOnly lf req fl)).requested = fl.names ∧
    (exclude_omitted_fields r p (.mk .mixinOnly lf req fl)).fields
      = excludeFlds r (lf.getD p) fl ∧
    (exclude_omitted_fields r p (.mk .mixinOnly lf req fl)).fields.names = fl.names := by
  have h4 : (exclude_omitted_fields r p (.mk .mixinOnly lf req fl)).fields
      = excludeFlds r (lf.getD p) fl := by
    show (if lf.getD p then (excludeFlds r (lf.getD p) fl).keepOnly fl.names
          else excludeFlds r (lf.getD p) fl) = excludeFlds r (lf.getD p) fl
    by_cases h : lf.getD p = true
    · rw [if_pos h, keepOnly_of_all_mem]
      intro n hn
      rwa [excludeFlds_names] at hn
    · rw [if_neg h]
  exact ⟨rfl, rfl, rfl, h4, by rw [h4, excludeFlds_names]⟩
